import Mathlib

/-!
Shallow embedding of the data filtering and aggregation pipeline of
`sales_dashboard.py` (a pandas/streamlit sales dashboard), together with
proofs of the behavioural properties stated in its specification.

Modelling conventions:
* A pandas DataFrame row becomes a `Row` record; the whole dataset is a
  `List Row` in row order.
* The `Order Date` index is modelled at day granularity (`Date`), since the
  script compares dates via `df.index.date` (time-of-day is ignored by the
  filter, and the month key depends only on year/month).
* The `Sales` column is modelled as `ℚ` (exact decimal arithmetic, as the
  specification's "plain decimal addition").
* pandas group-by tables become association lists `List (key × ℚ)`; pandas
  sorts group keys while this embedding lists them in order of occurrence,
  which is immaterial to every property proved here (none depends on the
  order of group keys).
-/

/-- A calendar date at day granularity (what `df.index.date` exposes). -/
structure Date where
  year : Nat
  month : Nat
  day : Nat
deriving DecidableEq

/-- Day-granularity comparison of dates, as python `datetime.date` ordering
(lexicographic on year, month, day). -/
def Date.le (a b : Date) : Prop :=
  a.year < b.year ∨
    (a.year = b.year ∧ (a.month < b.month ∨ (a.month = b.month ∧ a.day ≤ b.day)))

instance Date.decLe (a b : Date) : Decidable (Date.le a b) := by
  unfold Date.le
  exact inferInstance

/-- A date with a calendar-valid month field (pandas timestamps always have
`1 ≤ month ≤ 12`). -/
def Date.Valid (d : Date) : Prop :=
  1 ≤ d.month ∧ d.month ≤ 12

instance Date.decValid (d : Date) : Decidable d.Valid := by
  unfold Date.Valid
  exact inferInstance

/-- A year-month pair: the result of `.to_period("M")` on a timestamp. -/
structure Month where
  year : Nat
  month : Nat
deriving DecidableEq

/-- The month a date belongs to (`to_period("M")`). -/
def Date.toMonth (d : Date) : Month :=
  ⟨d.year, d.month⟩

/-- One row of the sales dataset: the columns of the CSV that the dashboard
reads (`Order Date` index, `Region`, `Category`, `Sub-Category`,
`Product Name`, `Sales`). -/
structure Row where
  orderDate : Date
  region : String
  category : String
  subCategory : String
  productName : String
  sales : ℚ
deriving DecidableEq

/-- Month key of a row, derived from the date index. -/
def monthKey (r : Row) : Month :=
  r.orderDate.toMonth

/-- Line 34 of `sales_dashboard.py`:
`filtered_df = df[(df.index.date >= start_date) & (df.index.date <= end_date)]`. -/
def date_filtered_df (df : List Row) (start_date end_date : Date) : List Row :=
  df.filter fun r =>
    decide (Date.le start_date r.orderDate) && decide (Date.le r.orderDate end_date)

/-- Lines 34 and 42 of `sales_dashboard.py` composed: the date-range filter
followed by
`filtered_df = filtered_df[(filtered_df['Region'].isin(region_filter)) & (filtered_df['Category'].isin(category_filter))]`. -/
def filtered_df (df : List Row) (start_date end_date : Date)
    (region_filter category_filter : List String) : List Row :=
  (date_filtered_df df start_date end_date).filter fun r =>
    decide (r.region ∈ region_filter) && decide (r.category ∈ category_filter)

/-- Distinct keys of a group-by, in order of occurrence (pandas sorts them;
key order is immaterial to every property proved here). -/
def groupKeys {κ : Type} [DecidableEq κ] (key : Row → κ) (df : List Row) : List κ :=
  (df.map key).dedup

/-- Total `Sales` of the group of rows with key `k` (`['Sales'].sum()` within
one group). -/
def groupSum {κ : Type} [DecidableEq κ] (key : Row → κ) (df : List Row) (k : κ) : ℚ :=
  ((df.filter fun r => decide (key r = k)).map Row.sales).sum

/-- `df.groupby(key)['Sales'].sum()` as an association list: one entry per
distinct key, holding the sum of `Sales` over that group. -/
def groupbySum {κ : Type} [DecidableEq κ] (key : Row → κ) (df : List Row) :
    List (κ × ℚ) :=
  (groupKeys key df).map fun k => (k, groupSum key df k)

/-- Line 67 of `sales_dashboard.py`:
`monthly_sales_region = filtered_df.groupby([filtered_df.index.to_period("M"), 'Region'])['Sales'].sum()`. -/
def monthly_sales_region (df : List Row) : List ((Month × String) × ℚ) :=
  groupbySum (fun r => (monthKey r, r.region)) df

/-- Line 81 of `sales_dashboard.py`:
`monthly_subcategory_sales = filtered_df.groupby([filtered_df.index.to_period('M'), 'Sub-Category'])['Sales'].sum()`. -/
def monthly_subcategory_sales (df : List Row) : List ((Month × String) × ℚ) :=
  groupbySum (fun r => (monthKey r, r.subCategory)) df

/-- Line 98 of `sales_dashboard.py`:
`sales_by_subcategory = filtered_df.groupby('Sub-Category')['Sales'].sum()`. -/
def sales_by_subcategory (df : List Row) : List (String × ℚ) :=
  groupbySum Row.subCategory df

/-- Line 110 of `sales_dashboard.py`:
`region_monthly_sales = filtered_df.groupby([filtered_df.index.to_period("M"), 'Region'])['Sales'].sum()`
(the same table as line 67, recomputed for the heatmap). -/
def region_monthly_sales (df : List Row) : List ((Month × String) × ℚ) :=
  groupbySum (fun r => (monthKey r, r.region)) df

/-- Serial number of a calendar month (months since year 0), used to
enumerate the consecutive months that `resample('M')` produces. -/
def Month.idx (m : Month) : Nat :=
  m.year * 12 + (m.month - 1)

/-- The month with a given serial number. -/
def Month.ofIdx (n : Nat) : Month :=
  ⟨n / 12, n % 12 + 1⟩

/-- The row labels produced by `filtered_df['Sales'].resample('M')`: every
calendar month from the earliest to the latest month of the index, inclusive
and consecutive (empty on an empty frame). -/
def resample_months (df : List Row) : List Month :=
  match df with
  | [] => []
  | r :: rs =>
      (List.range
          ((rs.map fun x => (monthKey x).idx).foldl Nat.max (monthKey r).idx + 1
            - (rs.map fun x => (monthKey x).idx).foldl Nat.min (monthKey r).idx)).map
        fun i =>
          Month.ofIdx
            ((rs.map fun x => (monthKey x).idx).foldl Nat.min (monthKey r).idx + i)

/-- Line 51 of `sales_dashboard.py`:
`monthly_sales = filtered_df['Sales'].resample('M').sum()` — one row per
calendar month between the earliest and latest index dates, holding the total
`Sales` of that month (`0` for months with no rows). -/
def monthly_sales (df : List Row) : List (Month × ℚ) :=
  (resample_months df).map fun m => (m, groupSum monthKey df m)

/-- Row labels of the heatmap pivot: the distinct regions occurring in the
`region_monthly_sales` table (`pivot(index="Region", ...)`). -/
def pivot_index (df : List Row) : List String :=
  ((region_monthly_sales df).map fun p => p.1.2).dedup

/-- Column labels of the heatmap pivot: the distinct months occurring in the
`region_monthly_sales` table (`pivot(..., columns="Order Date")`). -/
def pivot_columns (df : List Row) : List Month :=
  ((region_monthly_sales df).map fun p => p.1.1).dedup

/-- Cell value of the pivot: the `Sales` entry of the `(month, region)` group
when that group exists in the table, `0` otherwise (`.fillna(0)`). -/
def pivot_lookup (tbl : List ((Month × String) × ℚ)) (reg : String) (m : Month) : ℚ :=
  match tbl.find? fun p => decide (p.1.1 = m ∧ p.1.2 = reg) with
  | some p => p.2
  | none => 0

/-- Line 111 of `sales_dashboard.py`:
`region_monthly_sales_pivot = region_monthly_sales.pivot(index="Region", columns="Order Date", values="Sales").fillna(0)`
— the region×month matrix, one row per region, one column per month. -/
def region_monthly_sales_pivot (df : List Row) : List (String × List (Month × ℚ)) :=
  (pivot_index df).map fun reg =>
    (reg, (pivot_columns df).map fun m => (m, pivot_lookup (region_monthly_sales df) reg m))

/-- Comparator of `sort_values(by='Sales', ascending=False)`: descending on
the summed `Sales` value. The source uses the pandas default sort kind
(quicksort), which leaves the relative order of tied products unspecified; no
property proved about `top_products` depends on the order of ties. -/
def sales_desc (a b : String × ℚ) : Bool :=
  decide (b.2 ≤ a.2)

/-- Line 123 of `sales_dashboard.py`:
`top_products = filtered_df.groupby('Product Name')['Sales'].sum().reset_index().sort_values(by='Sales', ascending=False).head(10)`. -/
def top_products (df : List Row) : List (String × ℚ) :=
  ((groupbySum Row.productName df).mergeSort sales_desc).take 10

/-- The specification's scenario dataset (three rows), with a gap month
(February 2023 has no rows). -/
def sampleDf : List Row :=
  [⟨⟨2023, 1, 5⟩, "East", "Technology", "Phones", "WidgetA", 100⟩,
   ⟨⟨2023, 1, 20⟩, "West", "Technology", "Phones", "WidgetB", 50⟩,
   ⟨⟨2023, 3, 1⟩, "East", "Technology", "Chairs", "WidgetA", 30⟩]

/-- The scenario dataset run through the filter pipeline with the full date
range and all regions and categories selected. -/
def sampleFiltered : List Row :=
  filtered_df sampleDf ⟨2023, 1, 1⟩ ⟨2023, 12, 31⟩ ["East", "West"] ["Technology"]

lemma mem_filtered_df {df : List Row} {s e : Date} {rg ct : List String} {r : Row} :
    r ∈ filtered_df df s e rg ct ↔
      r ∈ df ∧ Date.le s r.orderDate ∧ Date.le r.orderDate e ∧
        r.region ∈ rg ∧ r.category ∈ ct := by
  simp only [filtered_df, date_filtered_df, List.mem_filter, Bool.and_eq_true,
    decide_eq_true_eq]
  tauto

lemma Date.le_trans {a b c : Date} (h1 : Date.le a b) (h2 : Date.le b c) :
    Date.le a c := by
  unfold Date.le at *
  omega

lemma Date.le_total (a b : Date) : Date.le a b ∨ Date.le b a := by
  unfold Date.le
  omega

lemma groupSum_cons {κ : Type} [DecidableEq κ] (key : Row → κ) (r : Row)
    (rs : List Row) (k : κ) :
    groupSum key (r :: rs) k = (if key r = k then r.sales else 0) + groupSum key rs k := by
  unfold groupSum
  by_cases h : key r = k
  · simp [List.filter_cons, h]
  · simp [List.filter_cons, h]

lemma sum_ite_mem {κ : Type} [DecidableEq κ] (ks : List κ) (a : κ) (c : ℚ)
    (hnd : ks.Nodup) (ha : a ∈ ks) :
    (ks.map fun k => if a = k then c else 0).sum = c := by
  induction ks with
  | nil => cases ha
  | cons b t ih =>
    rcases List.mem_cons.mp ha with rfl | hat
    · have ht : (t.map fun k => if a = k then c else 0).sum = 0 := by
        apply List.sum_eq_zero
        intro x hx
        rcases List.mem_map.mp hx with ⟨k, hk, rfl⟩
        exact if_neg (by rintro rfl; exact (List.nodup_cons.mp hnd).1 hk)
      simp [ht]
    · have hne : a ≠ b := by
        rintro rfl
        exact (List.nodup_cons.mp hnd).1 hat
      simp only [List.map_cons, List.sum_cons, if_neg hne, zero_add]
      exact ih (List.nodup_cons.mp hnd).2 hat

lemma sum_groupSum {κ : Type} [DecidableEq κ] (key : Row → κ) (df : List Row)
    (ks : List κ) (hnd : ks.Nodup) (hc : ∀ r ∈ df, key r ∈ ks) :
    (ks.map fun k => groupSum key df k).sum = (df.map Row.sales).sum := by
  induction df with
  | nil => simp [groupSum]
  | cons r rs ih =>
    simp only [groupSum_cons, List.sum_map_add, List.map_cons, List.sum_cons]
    rw [sum_ite_mem ks (key r) r.sales hnd (hc r (by simp)),
      ih fun x hx => hc x (by simp [hx])]

lemma groupbySum_snd_sum {κ : Type} [DecidableEq κ] (key : Row → κ) (df : List Row) :
    ((groupbySum key df).map Prod.snd).sum = (df.map Row.sales).sum := by
  unfold groupbySum
  rw [List.map_map]
  exact sum_groupSum key df (groupKeys key df) (List.nodup_dedup _)
    fun r hr => List.mem_dedup.mpr (List.mem_map.mpr ⟨r, hr, rfl⟩)

lemma groupbySum_mem {κ : Type} [DecidableEq κ] {key : Row → κ} {df : List Row}
    {p : κ × ℚ} (hp : p ∈ groupbySum key df) :
    (∃ r ∈ df, key r = p.1) ∧ p.2 = groupSum key df p.1 := by
  unfold groupbySum groupKeys at hp
  rcases List.mem_map.mp hp with ⟨k, hk, rfl⟩
  refine ⟨?_, rfl⟩
  rcases List.mem_map.mp (List.mem_dedup.mp hk) with ⟨r, hr, rfl⟩
  exact ⟨r, hr, rfl⟩

lemma groupSum_of_no_rows {κ : Type} [DecidableEq κ] {key : Row → κ}
    {df : List Row} {k : κ} (h : ∀ r ∈ df, key r ≠ k) :
    groupSum key df k = 0 := by
  unfold groupSum
  rw [List.filter_eq_nil_iff.mpr fun r hr => by simpa using h r hr]
  rfl

lemma mem_groupbySum_of_mem {κ : Type} [DecidableEq κ] (key : Row → κ)
    {df : List Row} {r : Row} (hr : r ∈ df) :
    (key r, groupSum key df (key r)) ∈ groupbySum key df := by
  unfold groupbySum groupKeys
  exact List.mem_map.mpr
    ⟨key r, List.mem_dedup.mpr (List.mem_map.mpr ⟨r, hr, rfl⟩), rfl⟩

lemma Month.ofIdx_idx {m : Month} (h1 : 1 ≤ m.month) (h2 : m.month ≤ 12) :
    Month.ofIdx m.idx = m := by
  cases m with
  | mk y mo =>
    simp only [Month.idx, Month.ofIdx, Month.mk.injEq] at *
    omega

lemma Month.ofIdx_inj : Function.Injective Month.ofIdx := by
  intro a b h
  simp only [Month.ofIdx, Month.mk.injEq] at h
  omega

lemma foldl_min_le_init (l : List Nat) (init : Nat) :
    l.foldl Nat.min init ≤ init := by
  induction l generalizing init with
  | nil => exact Nat.le_refl _
  | cons a t ih => exact Nat.le_trans (ih (Nat.min init a)) (Nat.min_le_left _ _)

lemma foldl_min_le_mem {l : List Nat} {a : Nat} (ha : a ∈ l) (init : Nat) :
    l.foldl Nat.min init ≤ a := by
  induction l generalizing init with
  | nil => cases ha
  | cons b t ih =>
    rcases List.mem_cons.mp ha with rfl | hat
    · exact Nat.le_trans (foldl_min_le_init t (Nat.min init a)) (Nat.min_le_right _ _)
    · exact ih hat _

lemma init_le_foldl_max (l : List Nat) (init : Nat) :
    init ≤ l.foldl Nat.max init := by
  induction l generalizing init with
  | nil => exact Nat.le_refl _
  | cons a t ih => exact Nat.le_trans (Nat.le_max_left init a) (ih (Nat.max init a))

lemma mem_le_foldl_max {l : List Nat} {a : Nat} (ha : a ∈ l) (init : Nat) :
    a ≤ l.foldl Nat.max init := by
  induction l generalizing init with
  | nil => cases ha
  | cons b t ih =>
    rcases List.mem_cons.mp ha with rfl | hat
    · exact Nat.le_trans (Nat.le_max_right init a) (init_le_foldl_max t (Nat.max init a))
    · exact ih hat _

lemma resample_months_nodup (df : List Row) : (resample_months df).Nodup := by
  cases df with
  | nil => simp [resample_months]
  | cons r rs =>
    simp only [resample_months]
    refine List.Nodup.map ?_ (List.nodup_range _)
    intro a b h
    have := Month.ofIdx_inj h
    omega

lemma idx_mem_resample_months {df : List Row} {m : Month}
    (h1 : 1 ≤ m.month) (h2 : m.month ≤ 12)
    (hx : ∃ x ∈ df, (monthKey x).idx ≤ m.idx)
    (hy : ∃ y ∈ df, m.idx ≤ (monthKey y).idx) : m ∈ resample_months df := by
  cases df with
  | nil =>
    rcases hx with ⟨x, hmem, _⟩
    cases hmem
  | cons r rs =>
    simp only [resample_months]
    have hlo : (rs.map fun z => (monthKey z).idx).foldl Nat.min (monthKey r).idx
        ≤ m.idx := by
      rcases hx with ⟨x, hxm, hxle⟩
      refine Nat.le_trans ?_ hxle
      rcases List.mem_cons.mp hxm with rfl | hxs
      · exact foldl_min_le_init _ _
      · have hmem : (monthKey x).idx ∈ rs.map fun z => (monthKey z).idx :=
          List.mem_map.mpr ⟨x, hxs, rfl⟩
        exact foldl_min_le_mem hmem _
    have hhi : m.idx
        ≤ (rs.map fun z => (monthKey z).idx).foldl Nat.max (monthKey r).idx := by
      rcases hy with ⟨y, hym, hyle⟩
      refine Nat.le_trans hyle ?_
      rcases List.mem_cons.mp hym with rfl | hys
      · exact init_le_foldl_max _ _
      · have hmem : (monthKey y).idx ∈ rs.map fun z => (monthKey z).idx :=
          List.mem_map.mpr ⟨y, hys, rfl⟩
        exact mem_le_foldl_max hmem _
    refine List.mem_map.mpr
      ⟨m.idx - (rs.map fun z => (monthKey z).idx).foldl Nat.min (monthKey r).idx,
        List.mem_range.mpr (by omega), ?_⟩
    have harith :
        (rs.map fun z => (monthKey z).idx).foldl Nat.min (monthKey r).idx +
            (m.idx
              - (rs.map fun z => (monthKey z).idx).foldl Nat.min (monthKey r).idx)
          = m.idx := by omega
    rw [harith]
    exact Month.ofIdx_idx h1 h2

lemma mem_resample_months {df : List Row} {x : Row} (hx : x ∈ df)
    (hv : ∀ r ∈ df, r.orderDate.Valid) : monthKey x ∈ resample_months df :=
  idx_mem_resample_months (hv x hx).1 (hv x hx).2
    ⟨x, hx, Nat.le_refl _⟩ ⟨x, hx, Nat.le_refl _⟩

lemma monthly_sales_snd_sum (df : List Row) (hv : ∀ r ∈ df, r.orderDate.Valid) :
    ((monthly_sales df).map Prod.snd).sum = (df.map Row.sales).sum := by
  unfold monthly_sales
  rw [List.map_map]
  exact sum_groupSum monthKey df (resample_months df) (resample_months_nodup df)
    fun r hr => mem_resample_months hr hv

lemma sales_desc_trans (a b c : String × ℚ) (h1 : sales_desc a b = true)
    (h2 : sales_desc b c = true) : sales_desc a c = true := by
  simp only [sales_desc, decide_eq_true_eq] at *
  exact le_trans h2 h1

lemma sales_desc_total (a b : String × ℚ) : (sales_desc a b || sales_desc b a) = true := by
  simp only [sales_desc, Bool.or_eq_true, decide_eq_true_eq]
  exact le_total b.2 a.2

/-- C1: a row is in the output of the filter pipeline exactly when it is a row
of the dataset whose date lies in `[start_date, end_date]` (inclusive, day
granularity), whose region is among the selected regions, and whose category is
among the selected categories; so every output row satisfies all three
predicates and no dataset row satisfying them is omitted. -/
theorem C1_filter_characterisation (df : List Row) (s e : Date)
    (rg ct : List String) (r : Row) :
    r ∈ filtered_df df s e rg ct ↔
      r ∈ df ∧ Date.le s r.orderDate ∧ Date.le r.orderDate e ∧
        r.region ∈ rg ∧ r.category ∈ ct :=
  mem_filtered_df

/-- C2: the Monthly total aggregation (`resample('M').sum()`) conserves the
total: its `Sales` values summed over all month rows equal the sum of the
`Sales` column over the entire filtered dataset. Stated for datasets whose
dates carry calendar-valid month fields (as all pandas timestamps do). -/
theorem C2_monthly_total_conservation (df : List Row) (s e : Date)
    (rg ct : List String) (hv : ∀ r ∈ df, r.orderDate.Valid) :
    ((monthly_sales (filtered_df df s e rg ct)).map Prod.snd).sum
      = ((filtered_df df s e rg ct).map Row.sales).sum :=
  monthly_sales_snd_sum _ fun r hr => hv r (mem_filtered_df.mp hr).1

/-- Witness for C2 at the scenario dataset. -/
theorem C2_monthly_total_conservation_witness :
    ((monthly_sales (filtered_df sampleDf ⟨2023, 1, 1⟩ ⟨2023, 12, 31⟩
          ["East", "West"] ["Technology"])).map Prod.snd).sum
      = ((filtered_df sampleDf ⟨2023, 1, 1⟩ ⟨2023, 12, 31⟩
          ["East", "West"] ["Technology"]).map Row.sales).sum :=
  C2_monthly_total_conservation sampleDf ⟨2023, 1, 1⟩ ⟨2023, 12, 31⟩
    ["East", "West"] ["Technology"] (by decide)

/-- C3: every cell of the region×month pivot matrix — the entry of column `m`
in the row of region `reg`, for any region and month label of the matrix —
equals the sum of `Sales` over the rows of the dataset with that region and
that month, and in particular is `0` when no such rows exist (the sum over no
rows). -/
theorem C3_pivot_cell_correct (df : List Row) (reg : String) (m : Month)
    (hreg : reg ∈ pivot_index df) (hm : m ∈ pivot_columns df) :
    (reg, (pivot_columns df).map fun c => (c, pivot_lookup (region_monthly_sales df) reg c))
        ∈ region_monthly_sales_pivot df ∧
      (m, pivot_lookup (region_monthly_sales df) reg m)
        ∈ ((pivot_columns df).map fun c => (c, pivot_lookup (region_monthly_sales df) reg c)) ∧
      pivot_lookup (region_monthly_sales df) reg m
        = ((df.filter fun r => decide (r.region = reg ∧ monthKey r = m)).map Row.sales).sum := by
  refine ⟨List.mem_map.mpr ⟨reg, hreg, rfl⟩, List.mem_map.mpr ⟨m, hm, rfl⟩, ?_⟩
  unfold pivot_lookup
  cases hfind : (region_monthly_sales df).find? fun p => decide (p.1.1 = m ∧ p.1.2 = reg) with
  | none =>
    have hno := List.find?_eq_none.mp hfind
    have hrows : ∀ r ∈ df, ¬ (r.region = reg ∧ monthKey r = m) := by
      intro r hr hcon
      have hmem := mem_groupbySum_of_mem (fun x => (monthKey x, x.region)) hr
      have := hno _ hmem
      simp only [decide_eq_true_eq] at this
      exact this ⟨hcon.2, hcon.1⟩
    have hfe : (df.filter fun r => decide (r.region = reg ∧ monthKey r = m)) = [] :=
      List.filter_eq_nil_iff.mpr fun r hr => by simpa using hrows r hr
    rw [hfe]
    rfl
  | some p =>
    have hpred := List.find?_some hfind
    rw [decide_eq_true_eq] at hpred
    have hval := (groupbySum_mem (List.mem_of_find?_eq_some hfind)).2
    have hp1 : p.1 = ((m, reg) : Month × String) := Prod.ext hpred.1 hpred.2
    have hfeq :
        (df.filter fun r => decide ((monthKey r, r.region) = ((m, reg) : Month × String)))
          = df.filter fun r => decide (r.region = reg ∧ monthKey r = m) :=
      List.filter_congr fun x _ => by
        simp only [decide_eq_decide, Prod.mk.injEq]
        tauto
    simp only [hval, hp1]
    unfold groupSum
    rw [hfeq]

/-- Witness for C3 at the scenario dataset, region `"East"` and January 2023. -/
theorem C3_pivot_cell_correct_witness :
    ("East" ∈ pivot_index sampleFiltered) ∧
      ((⟨2023, 1⟩ : Month) ∈ pivot_columns sampleFiltered) ∧
      (("East", (pivot_columns sampleFiltered).map fun c =>
            (c, pivot_lookup (region_monthly_sales sampleFiltered) "East" c))
          ∈ region_monthly_sales_pivot sampleFiltered ∧
        ((⟨2023, 1⟩ : Month), pivot_lookup (region_monthly_sales sampleFiltered) "East" ⟨2023, 1⟩)
          ∈ ((pivot_columns sampleFiltered).map fun c =>
              (c, pivot_lookup (region_monthly_sales sampleFiltered) "East" c)) ∧
        pivot_lookup (region_monthly_sales sampleFiltered) "East" ⟨2023, 1⟩
          = ((sampleFiltered.filter fun r =>
              decide (r.region = "East" ∧ monthKey r = ⟨2023, 1⟩)).map Row.sales).sum) :=
  ⟨by decide, by decide,
    C3_pivot_cell_correct sampleFiltered "East" ⟨2023, 1⟩ (by decide) (by decide)⟩

/-- C4: the Top-10 products table has at most 10 rows, is sorted in descending
order of summed `Sales` (each row's value is ≥ every later row's value), and
every product it contains has summed `Sales` at least that of every product of
the grouped table it excludes. -/
theorem C4_top_products_correct (df : List Row) :
    (top_products df).length ≤ 10 ∧
      List.Pairwise (fun a b : String × ℚ => b.2 ≤ a.2) (top_products df) ∧
      ∀ p ∈ top_products df, ∀ q ∈ groupbySum Row.productName df,
        q.1 ∉ (top_products df).map Prod.fst → q.2 ≤ p.2 := by
  have hsorted := List.sorted_mergeSort sales_desc_trans sales_desc_total
    (groupbySum Row.productName df)
  refine ⟨List.length_take_le _ _, ?_, ?_⟩
  · have htake := List.Pairwise.sublist (List.take_sublist 10 _) hsorted
    exact htake.imp fun h => by simpa [sales_desc] using h
  · intro p hp q hq hq1
    have hqs : q ∈ (groupbySum Row.productName df).mergeSort sales_desc :=
      List.mem_mergeSort.mpr hq
    have hsplit := List.take_append_drop 10 ((groupbySum Row.productName df).mergeSort sales_desc)
    rw [← hsplit] at hqs hsorted
    have hqtake : q ∉ top_products df := fun hcon => hq1 (List.mem_map.mpr ⟨q, hcon, rfl⟩)
    have hqdrop : q ∈ ((groupbySum Row.productName df).mergeSort sales_desc).drop 10 := by
      rcases List.mem_append.mp hqs with h | h
      · exact absurd h hqtake
      · exact h
    have hpair := (List.pairwise_append.mp hsorted).2.2 p hp q hqdrop
    simpa [sales_desc] using hpair

/-- Counterexample to C6: on the specification's own scenario dataset (rows in
January and March 2023, none in February), run through the filter pipeline with
everything selected, February 2023 — a month with no rows — does appear as a
row of the Monthly total table (`resample('M')` emits every month between the
first and last index dates). -/
theorem C6_counterexample :
    (∀ r ∈ sampleFiltered, monthKey r ≠ ⟨2023, 2⟩) ∧
      (⟨2023, 2⟩ : Month) ∈ (monthly_sales sampleFiltered).map Prod.fst := by
  decide

/-- C6 (amended): a month with no rows in the filtered dataset is absent from
the group-by long tables (Monthly by region, Monthly by sub-category); the
Monthly total table (`resample('M')`) behaves differently: a month with no
rows can only appear there with an explicit `Sales` value of `0`, and every
calendar-valid month lying between the months of two rows of the dataset —
in particular every empty intermediate month — IS present in it, as the
explicit row `(m, 0)`. -/
theorem C6_amended_empty_months (df : List Row) (m : Month)
    (h : ∀ r ∈ df, monthKey r ≠ m) :
    (∀ p ∈ monthly_sales_region df, p.1.1 ≠ m) ∧
      (∀ p ∈ monthly_subcategory_sales df, p.1.1 ≠ m) ∧
      (∀ v : ℚ, (m, v) ∈ monthly_sales df → v = 0) ∧
      (1 ≤ m.month → m.month ≤ 12 →
        (∃ x ∈ df, (monthKey x).idx ≤ m.idx) →
        (∃ y ∈ df, m.idx ≤ (monthKey y).idx) →
        (m, (0 : ℚ)) ∈ monthly_sales df) := by
  refine ⟨?_, ?_, ?_, ?_⟩
  · intro p hp
    rcases (groupbySum_mem hp).1 with ⟨r, hr, hkey⟩
    have : (monthKey r, r.region) = p.1 := hkey
    rw [← this]
    exact h r hr
  · intro p hp
    rcases (groupbySum_mem hp).1 with ⟨r, hr, hkey⟩
    have : (monthKey r, r.subCategory) = p.1 := hkey
    rw [← this]
    exact h r hr
  · intro v hv
    unfold monthly_sales at hv
    rcases List.mem_map.mp hv with ⟨m2, _, heq⟩
    have hm2 : m2 = m := congrArg Prod.fst heq
    have hval : groupSum monthKey df m2 = v := congrArg Prod.snd heq
    rw [← hval, hm2]
    exact groupSum_of_no_rows h
  · intro h1 h2 hx hy
    have hmem : m ∈ resample_months df := idx_mem_resample_months h1 h2 hx hy
    have hrow : (m, groupSum monthKey df m) ∈ monthly_sales df :=
      List.mem_map.mpr ⟨m, hmem, rfl⟩
    rwa [groupSum_of_no_rows h] at hrow

/-- Witness for the amended C6 at the scenario dataset and its gap month
(February 2023, which lies between the January and March rows and has no
rows of its own): absent from both group-by tables, present in the Monthly
total table as an explicit zero. -/
theorem C6_amended_empty_months_witness :
    (∀ r ∈ sampleFiltered, monthKey r ≠ ⟨2023, 2⟩) ∧
      (∀ p ∈ monthly_sales_region sampleFiltered, p.1.1 ≠ ⟨2023, 2⟩) ∧
      (∀ p ∈ monthly_subcategory_sales sampleFiltered, p.1.1 ≠ ⟨2023, 2⟩) ∧
      (∀ v : ℚ, (⟨2023, 2⟩, v) ∈ monthly_sales sampleFiltered → v = 0) ∧
      ((⟨2023, 2⟩ : Month), (0 : ℚ)) ∈ monthly_sales sampleFiltered := by
  have h := C6_amended_empty_months sampleFiltered ⟨2023, 2⟩ (by decide)
  exact ⟨by decide, h.1, h.2.1, h.2.2.1,
    h.2.2.2 (by decide) (by decide) (by decide) (by decide)⟩

/-- C7: with an empty region selection or an empty category selection the
filter pipeline returns the empty dataset (no implicit select-all fallback),
and all six aggregations of that empty result are themselves empty — they are
all well defined and produce empty (hence all-zero) outputs. -/
theorem C7_empty_selection (df : List Row) (s e : Date) (rg ct : List String)
    (h : rg = [] ∨ ct = []) :
    filtered_df df s e rg ct = [] ∧
      monthly_sales (filtered_df df s e rg ct) = [] ∧
      monthly_sales_region (filtered_df df s e rg ct) = [] ∧
      monthly_subcategory_sales (filtered_df df s e rg ct) = [] ∧
      sales_by_subcategory (filtered_df df s e rg ct) = [] ∧
      region_monthly_sales_pivot (filtered_df df s e rg ct) = [] ∧
      top_products (filtered_df df s e rg ct) = [] := by
  have hf : filtered_df df s e rg ct = [] := by
    rw [List.eq_nil_iff_forall_not_mem]
    intro r hr
    rw [mem_filtered_df] at hr
    rcases h with rfl | rfl
    · cases hr.2.2.2.1
    · cases hr.2.2.2.2
  refine ⟨hf, ?_, ?_, ?_, ?_, ?_, ?_⟩ <;> rw [hf]
  · rfl
  · rfl
  · rfl
  · rfl
  · rfl
  · show ((groupbySum Row.productName []).mergeSort sales_desc).take 10 = []
    rw [show groupbySum Row.productName ([] : List Row) = [] from rfl, List.mergeSort_nil]
    rfl

/-- Witness for C7 at the scenario dataset with an empty region selection. -/
theorem C7_empty_selection_witness :
    filtered_df sampleDf ⟨2023, 1, 1⟩ ⟨2023, 12, 31⟩ [] ["Technology"] = [] ∧
      monthly_sales (filtered_df sampleDf ⟨2023, 1, 1⟩ ⟨2023, 12, 31⟩ [] ["Technology"]) = [] ∧
      monthly_sales_region (filtered_df sampleDf ⟨2023, 1, 1⟩ ⟨2023, 12, 31⟩ [] ["Technology"]) = [] ∧
      monthly_subcategory_sales (filtered_df sampleDf ⟨2023, 1, 1⟩ ⟨2023, 12, 31⟩ [] ["Technology"]) = [] ∧
      sales_by_subcategory (filtered_df sampleDf ⟨2023, 1, 1⟩ ⟨2023, 12, 31⟩ [] ["Technology"]) = [] ∧
      region_monthly_sales_pivot (filtered_df sampleDf ⟨2023, 1, 1⟩ ⟨2023, 12, 31⟩ [] ["Technology"]) = [] ∧
      top_products (filtered_df sampleDf ⟨2023, 1, 1⟩ ⟨2023, 12, 31⟩ [] ["Technology"]) = [] :=
  C7_empty_selection sampleDf ⟨2023, 1, 1⟩ ⟨2023, 12, 31⟩ [] ["Technology"] (Or.inl rfl)

/-- C8: when the start date is strictly after the end date (equivalently, by
totality of the day-granularity order, `¬ Date.le start end`), the filter
pipeline returns the empty dataset. -/
theorem C8_start_after_end_empty (df : List Row) (s e : Date)
    (rg ct : List String) (h : ¬ Date.le s e) :
    filtered_df df s e rg ct = [] := by
  rw [List.eq_nil_iff_forall_not_mem]
  intro r hr
  rw [mem_filtered_df] at hr
  exact h (Date.le_trans hr.2.1 hr.2.2.1)

/-- Witness for C8 at a concrete dataset and a reversed date range. -/
theorem C8_start_after_end_empty_witness :
    filtered_df
        [⟨⟨2023, 1, 5⟩, "East", "Technology", "Phones", "WidgetA", 100⟩]
        ⟨2023, 5, 1⟩ ⟨2023, 4, 30⟩ ["East"] ["Technology"] = [] :=
  C8_start_after_end_empty _ ⟨2023, 5, 1⟩ ⟨2023, 4, 30⟩ _ _ (by decide)

/-- C9: the filter pipeline is idempotent — applying it to its own output with
the same selection returns that output unchanged. -/
theorem C9_filter_idempotent (df : List Row) (s e : Date) (rg ct : List String) :
    filtered_df (filtered_df df s e rg ct) s e rg ct = filtered_df df s e rg ct := by
  unfold filtered_df date_filtered_df
  simp only [List.filter_filter]
  exact List.filter_congr fun a _ => by
    cases hd : decide (Date.le s a.orderDate) <;>
      cases he : decide (Date.le a.orderDate e) <;>
        cases hr : decide (a.region ∈ rg) <;>
          cases hc : decide (a.category ∈ ct) <;> simp [hd, he, hr, hc]

/-- C10: the `Sales` values of the Sub-category totals table (the pie-chart
aggregation) sum to the total `Sales` of the filtered dataset, so the
proportional display partitions exactly the filtered total. -/
theorem C10_subcategory_totals_conservation (df : List Row) (s e : Date)
    (rg ct : List String) :
    ((sales_by_subcategory (filtered_df df s e rg ct)).map Prod.snd).sum
      = ((filtered_df df s e rg ct).map Row.sales).sum :=
  groupbySum_snd_sum Row.subCategory (filtered_df df s e rg ct)

/-- Witness for C4 at the scenario dataset. -/
theorem C4_top_products_correct_witness :
    (top_products sampleFiltered).length ≤ 10 ∧
      List.Pairwise (fun a b : String × ℚ => b.2 ≤ a.2) (top_products sampleFiltered) :=
  ⟨(C4_top_products_correct sampleFiltered).1, (C4_top_products_correct sampleFiltered).2.1⟩
